import Mathlib

/-!
# Verification of the FE_Final_Project shopping application

Shallow embedding of the application's data model and logic:

* `Product` and `CartItem` follow `src/types/Product.ts` and
  `src/types/CartItem.ts`; the JavaScript `number` fields are modelled as
  `ℚ` (price) and `ℤ` (quantity), strings as `String`, and the optional
  fields as `Option String`.
* The cart handlers (`handleAddToCart`, `handleRemoveFromCart`,
  `handleUpdateCartQuantity`, `handleClearCart`) and the product handlers
  (`handleUpdateProduct`, `handleDeleteProduct`) are transcribed from
  `App.tsx`: each React `setCartItems (prev => e)` updater becomes a pure
  function from the previous list to the next one.
* The products-page filter/sort pipeline is transcribed from
  `src/pages/ProductsPage.tsx`.
* The API wrappers are transcribed from `src/api/productsApi.ts`, with the
  network transport abstracted as an `Except` value: `Except.error`
  stands for an axios rejection (transport or decode failure).
-/

/-- `Product` from `src/types/Product.ts`: `id`, `name`, `price`, and the
optional `description` and `image` fields. -/
structure Product where
  id : String
  name : String
  price : ℚ
  description : Option String := none
  image : Option String := none
  deriving DecidableEq, Repr

/-- `CartItem` from `src/types/CartItem.ts`: a full `Product` snapshot paired
with a quantity. -/
structure CartItem where
  product : Product
  quantity : Int
  deriving DecidableEq, Repr

/-- The list of product ids occurring in a cart. -/
def cartIds (cart : List CartItem) : List String :=
  cart.map (fun item => item.product.id)

/-- `handleAddToCart` from `App.tsx` (lines 140–167).  The guard
`!product || !product.id` throws (and the catch leaves the cart unchanged)
exactly when the id is the empty string, since an empty string is falsy in
JavaScript.  Otherwise the updater increments the quantity of the existing
item with the same product id, or appends a fresh item with quantity 1. -/
def handleAddToCart (product : Product) (prev : List CartItem) : List CartItem :=
  if product.id = "" then prev
  else
    match prev.find? (fun item => item.product.id == product.id) with
    | some _ =>
        prev.map (fun item =>
          if item.product.id == product.id then
            { item with quantity := item.quantity + 1 }
          else item)
    | none => prev ++ [{ product := product, quantity := 1 }]

/-- `handleRemoveFromCart` from `App.tsx` (lines 169–178): keep the items
whose product id differs from the given one. -/
def handleRemoveFromCart (productId : String) (prev : List CartItem) : List CartItem :=
  prev.filter (fun item => item.product.id != productId)

/-- `handleUpdateCartQuantity` from `App.tsx` (lines 180–202): a quantity
≤ 0 removes the item; a positive quantity overwrites the matching item's
quantity. -/
def handleUpdateCartQuantity (productId : String) (quantity : Int)
    (prev : List CartItem) : List CartItem :=
  if quantity ≤ 0 then
    prev.filter (fun item => item.product.id != productId)
  else
    prev.map (fun item =>
      if item.product.id == productId then { item with quantity := quantity }
      else item)

/-- `handleClearCart` from `App.tsx` (lines 208–215): the cart becomes the
empty list. -/
def handleClearCart (_prev : List CartItem) : List CartItem := []

/-- `toLowerCase` on a string, character-wise, as a list of characters. -/
def lowerChars (s : String) : List Char := s.data.map Char.toLower

/-- The search stage of `ProductsPage.tsx` (lines 49–51):
`p.name.toLowerCase().includes(search.toLowerCase())`, i.e. the lower-cased
search string is an infix of the lower-cased product name. -/
def nameMatchesSearch (search : String) (p : Product) : Bool :=
  decide (lowerChars search <:+: lowerChars p.name)

/-- The price-range stage of `ProductsPage.tsx` (lines 57–62).  An empty
input string means no bound, modelled as `none`; a non-empty input parsed by
`Number(...)` is modelled as `some` rational. -/
def meetsPriceBounds (minPrice maxPrice : Option ℚ) (p : Product) : Bool :=
  (match minPrice with
   | none => true
   | some m => decide (m ≤ p.price)) &&
  (match maxPrice with
   | none => true
   | some m => decide (p.price ≤ m))

/-- The filter stage of the products-page pipeline: the search filter
followed by the price-range filter, as in `ProductsPage.tsx` lines 49–62. -/
def filteredProducts (search : String) (minPrice maxPrice : Option ℚ)
    (products : List Product) : List Product :=
  (products.filter (nameMatchesSearch search)).filter
    (meetsPriceBounds minPrice maxPrice)

/-- The five values of the `sortOption` select in `ProductsPage.tsx`:
`""`, `"price-asc"`, `"price-desc"`, `"name-asc"`, `"name-desc"`. -/
inductive SortOption where
  | none
  | priceAsc
  | priceDesc
  | nameAsc
  | nameDesc
  deriving DecidableEq, Repr

/-- The sort stage of `ProductsPage.tsx` (lines 75–105).  The host
`Array.prototype.sort` is a stable comparison sort; with the comparator
`(a, b) => a.price - b.price` it sorts by ascending price, and with the
arguments swapped by descending price.  It is modelled by the stable
`List.insertionSort`.  `localeCompare` on names is modelled by the `String`
order. -/
def sortProducts (opt : SortOption) (ps : List Product) : List Product :=
  match opt with
  | .none => ps
  | .priceAsc => ps.insertionSort (fun a b => a.price ≤ b.price)
  | .priceDesc => ps.insertionSort (fun a b => b.price ≤ a.price)
  | .nameAsc => ps.insertionSort (fun a b => a.name ≤ b.name)
  | .nameDesc => ps.insertionSort (fun a b => b.name ≤ a.name)

/-- `getProducts` from `src/api/productsApi.ts` (lines 18–35).  The transport
argument stands for the awaited axios call: `Except.error` is a rejected
request (transport or decode failure).  On failure the catch block returns
the empty list, so the function itself never fails. -/
def getProducts (transport : Except String (List Product)) : List Product :=
  match transport with
  | .ok response => response
  | .error _ => []

/-- `getProduct` from `src/api/productsApi.ts` (lines 40–56): the catch block
re-throws, so a transport failure is re-signaled to the caller. -/
def getProduct (transport : Except String Product) : Except String Product :=
  match transport with
  | .ok response => .ok response
  | .error e => .error e

/-- `createProduct` from `src/api/productsApi.ts` (lines 61–75): re-throws on
failure. -/
def createProduct (transport : Except String Product) : Except String Product :=
  match transport with
  | .ok response => .ok response
  | .error e => .error e

/-- `updateProduct` from `src/api/productsApi.ts` (lines 80–97): re-throws on
failure. -/
def updateProduct (transport : Except String Product) : Except String Product :=
  match transport with
  | .ok response => .ok response
  | .error e => .error e

/-- `deleteProduct` from `src/api/productsApi.ts` (lines 102–115): re-throws
on failure. -/
def deleteProduct (transport : Except String Unit) : Except String Unit :=
  match transport with
  | .ok _ => .ok ()
  | .error e => .error e

/-- The products/loading slice of the `App` component state
(`App.tsx` lines 35–36). -/
structure LoadState where
  products : List Product
  loading : Bool
  deriving DecidableEq, Repr

/-- The initial `App` state: no products, `loading` true. -/
def initialLoadState : LoadState := { products := [], loading := true }

/-- The body of the `load` effect in `App.tsx` (lines 60–76) applied to a
result of the awaited call: on success set the products, on an exception
keep them; the `finally` block sets `loading` to `false` in both branches. -/
def runLoadEffect (result : Except String (List Product))
    (s : LoadState) : LoadState :=
  match result with
  | .ok data => { products := data, loading := false }
  | .error _ => { products := s.products, loading := false }

/-- The `load` effect of `App.tsx` as actually wired: it awaits
`getProducts`, which returns a value rather than throwing, so the `try`
branch always receives `Except.ok (getProducts transport)`. -/
def appLoad (transport : Except String (List Product)) (s : LoadState) : LoadState :=
  runLoadEffect (.ok (getProducts transport)) s

/-- The `cartItems` `useState` initializer of `App.tsx` (lines 43–54).
`saved` is the value read from `localStorage.getItem("cart")` (`none` for a
null or falsy result), and `parse` abstracts `JSON.parse` on the cart
payload, `none` standing for a parse exception, which the catch block turns
into the empty cart. -/
def rehydrateCart (saved : Option String)
    (parse : String → Option (List CartItem)) : List CartItem :=
  match saved with
  | none => []
  | some raw =>
    match parse raw with
    | some cart => cart
    | none => []

/-- The products-and-cart slice of the `App` component state. -/
structure AppState where
  products : List Product
  cartItems : List CartItem
  deriving DecidableEq, Repr

/-- The local state update of `handleUpdateProduct` in `App.tsx`
(lines 111–121): replace the product whose id matches the saved one. -/
def handleUpdateProduct (saved : Product) (s : AppState) : AppState :=
  { s with products := s.products.map (fun p => if p.id == saved.id then saved else p) }

/-- The local state update of `handleDeleteProduct` in `App.tsx`
(lines 123–133): drop the product with the given id. -/
def handleDeleteProduct (id : String) (s : AppState) : AppState :=
  { s with products := s.products.filter (fun p => p.id != id) }

/-! ### Concrete sample data used in the examples of the specification -/

/-- A sample product named "Apple Watch". -/
def appleWatch : Product := { id := "1", name := "Apple Watch", price := 30 }

/-- A sample product named "Banana". -/
def banana : Product := { id := "2", name := "Banana", price := 10 }

/-- A sample product with price 30. -/
def pA : Product := { id := "a", name := "A", price := 30 }

/-- A sample product with price 10. -/
def pB : Product := { id := "b", name := "B", price := 10 }

/-- A sample product with price 20. -/
def pC : Product := { id := "c", name := "C", price := 20 }

/-! ### Helper lemmas -/

/-- Filtering cart items by a predicate on ids commutes with `cartIds`. -/
lemma cartIds_filter_ne (pid : String) (cart : List CartItem) :
    cartIds (cart.filter (fun item => item.product.id != pid)) =
      (cartIds cart).filter (fun s => s != pid) := by
  induction cart with
  | nil => rfl
  | cons a t ih =>
    by_cases h : a.product.id = pid <;>
      simp [cartIds, List.filter_cons, h] at ih ⊢ <;> simpa [cartIds] using ih

/-- Mapping an id-preserving function over the cart leaves `cartIds`
unchanged. -/
lemma cartIds_map_of_preserves (f : CartItem → CartItem)
    (hf : ∀ item, (f item).product.id = item.product.id) (cart : List CartItem) :
    cartIds (cart.map f) = cartIds cart := by
  simp only [cartIds, List.map_map]
  exact List.map_congr_left (fun item _ => hf item)

/-! ### Claims -/

/-- C1: for a product with a non-empty id, `handleAddToCart` increments the
quantity of the existing item with the same product id (touching no other
item, adding and removing nothing), or appends a fresh item with quantity 1
when no item has that id; adding the same product twice to the empty cart
yields exactly one entry with quantity 2. -/
theorem handleAddToCart_spec (cart : List CartItem) (p : Product)
    (h : p.id ≠ "") :
    ((∃ item ∈ cart, item.product.id = p.id) →
      handleAddToCart p cart =
        cart.map (fun item =>
          if item.product.id == p.id then
            { item with quantity := item.quantity + 1 }
          else item)) ∧
    ((∀ item ∈ cart, item.product.id ≠ p.id) →
      handleAddToCart p cart = cart ++ [{ product := p, quantity := 1 }]) ∧
    handleAddToCart p (handleAddToCart p []) = [{ product := p, quantity := 2 }] := by
  refine ⟨?_, ?_, ?_⟩
  · rintro ⟨item, hmem, hid⟩
    have hsome : (cart.find? (fun it => it.product.id == p.id)).isSome := by
      rw [List.find?_isSome]
      exact ⟨item, hmem, by simpa using hid⟩
    obtain ⟨it, hit⟩ := Option.isSome_iff_exists.mp hsome
    simp only [handleAddToCart, if_neg h, hit]
  · intro hnone
    have hfind : cart.find? (fun it => it.product.id == p.id) = none := by
      rw [List.find?_eq_none]
      intro x hx
      simpa using hnone x hx
    simp only [handleAddToCart, if_neg h, hfind]
  · have h1 : handleAddToCart p [] = [{ product := p, quantity := 1 }] := by
      simp [handleAddToCart, if_neg h]
    rw [h1]
    simp [handleAddToCart, if_neg h, List.find?]

/-- Closed instance of `handleAddToCart_spec`: adding the Apple Watch twice
to an empty cart yields one entry with quantity 2. -/
theorem handleAddToCart_spec_witness :
    handleAddToCart appleWatch (handleAddToCart appleWatch []) =
      [{ product := appleWatch, quantity := 2 }] :=
  (handleAddToCart_spec [] appleWatch (by decide)).2.2

/-- C9: the catalog write operations (update a product by id, delete a
product by id) leave the cart list completely unchanged. -/
theorem catalog_writes_preserve_cart (u : Product) (i : String) (s : AppState) :
    (handleUpdateProduct u s).cartItems = s.cartItems ∧
    (handleDeleteProduct i s).cartItems = s.cartItems :=
  ⟨rfl, rfl⟩

/-- C10: `handleRemoveFromCart` and `handleUpdateCartQuantity` addressed at a
product id absent from the cart return the cart unchanged. -/
theorem absent_id_ops_identity (cart : List CartItem) (pid : String) (n : Int)
    (h : ∀ item ∈ cart, item.product.id ≠ pid) :
    handleRemoveFromCart pid cart = cart ∧
    handleUpdateCartQuantity pid n cart = cart := by
  have hfilter : cart.filter (fun item => item.product.id != pid) = cart := by
    rw [List.filter_eq_self]
    intro a ha
    simpa using h a ha
  refine ⟨hfilter, ?_⟩
  unfold handleUpdateCartQuantity
  split
  · exact hfilter
  · have : cart.map (fun item =>
        if item.product.id == pid then { item with quantity := n }
        else item) = cart.map id := by
      refine List.map_congr_left (fun item hmem => ?_)
      simp [h item hmem]
    simpa using this

/-- C2: `handleUpdateCartQuantity` with a non-positive quantity removes
every item whose product id matches, so the finite set of product ids loses
exactly the id `pid` (its cardinality dropping by one when `pid` was
present); with a positive quantity it overwrites the matching item's
quantity and leaves every other item unchanged. -/
theorem handleUpdateCartQuantity_spec (cart : List CartItem) (pid : String)
    (n : Int) :
    (n ≤ 0 →
      handleUpdateCartQuantity pid n cart =
        cart.filter (fun item => item.product.id != pid) ∧
      (cartIds (handleUpdateCartQuantity pid n cart)).toFinset =
        (cartIds cart).toFinset.erase pid ∧
      (pid ∈ cartIds cart →
        (cartIds (handleUpdateCartQuantity pid n cart)).toFinset.card + 1 =
          (cartIds cart).toFinset.card)) ∧
    (0 < n →
      handleUpdateCartQuantity pid n cart =
        cart.map (fun item =>
          if item.product.id == pid then { item with quantity := n }
          else item)) := by
  constructor
  · intro hn
    have heq : handleUpdateCartQuantity pid n cart =
        cart.filter (fun item => item.product.id != pid) := by
      simp [handleUpdateCartQuantity, if_pos hn]
    have hset : (cartIds (handleUpdateCartQuantity pid n cart)).toFinset =
        (cartIds cart).toFinset.erase pid := by
      rw [heq, cartIds_filter_ne]
      ext s
      simp [List.mem_toFinset, List.mem_filter, Finset.mem_erase, bne_iff_ne,
        and_comm]
    refine ⟨heq, hset, fun hpid => ?_⟩
    have hmem : pid ∈ (cartIds cart).toFinset := List.mem_toFinset.mpr hpid
    have hpos : 0 < (cartIds cart).toFinset.card :=
      Finset.card_pos.mpr ⟨pid, hmem⟩
    rw [hset, Finset.card_erase_of_mem hmem]
    omega
  · intro hpos
    simp [handleUpdateCartQuantity, if_neg (not_le.mpr hpos)]

/-- Closed instance of `handleUpdateCartQuantity_spec`: setting the quantity
of the only item to 0 removes it. -/
theorem handleUpdateCartQuantity_spec_witness :
    handleUpdateCartQuantity "1" 0 [{ product := appleWatch, quantity := 2 }] =
      List.filter (fun item => item.product.id != "1")
        [{ product := appleWatch, quantity := 2 }] :=
  ((handleUpdateCartQuantity_spec [{ product := appleWatch, quantity := 2 }]
    "1" 0).1 (by decide)).1

/-- C3: each of the four cart operations preserves pairwise-distinct product
ids in the cart list. -/
theorem cart_ops_preserve_nodup_ids (cart : List CartItem) (p : Product)
    (pid : String) (n : Int) (h : (cartIds cart).Nodup) :
    (cartIds (handleAddToCart p cart)).Nodup ∧
    (cartIds (handleRemoveFromCart pid cart)).Nodup ∧
    (cartIds (handleUpdateCartQuantity pid n cart)).Nodup ∧
    (cartIds (handleClearCart cart)).Nodup := by
  have hpres : ∀ q : Int → Int, ∀ x : String,
      (cartIds (cart.map (fun item =>
        if item.product.id == x then { item with quantity := q item.quantity }
        else item))).Nodup := by
    intro q x
    rw [cartIds_map_of_preserves]
    · exact h
    · intro item
      by_cases hb : item.product.id = x <;> simp [hb]
  have hfil : ∀ x : String,
      (cartIds (cart.filter (fun item => item.product.id != x))).Nodup := by
    intro x
    rw [cartIds_filter_ne]
    exact h.filter _
  refine ⟨?_, hfil pid, ?_, by simp [handleClearCart, cartIds]⟩
  · unfold handleAddToCart
    split
    · exact h
    · cases hf : cart.find? (fun item => item.product.id == p.id) with
      | some it =>
        simpa using hpres (fun m => m + 1) p.id
      | none =>
        have habs : ∀ x ∈ cart, x.product.id ≠ p.id := fun x hx => by
          simpa using List.find?_eq_none.mp hf x hx
        simpa [cartIds, List.nodup_append] using ⟨h, habs⟩
  · unfold handleUpdateCartQuantity
    split
    · exact hfil pid
    · simpa using hpres (fun _ => n) pid

/-- Closed instance of `cart_ops_preserve_nodup_ids` at a two-item cart with
distinct ids. -/
theorem cart_ops_preserve_nodup_ids_witness :
    (cartIds (handleAddToCart appleWatch
      [{ product := appleWatch, quantity := 1 },
       { product := banana, quantity := 1 }])).Nodup :=
  (cart_ops_preserve_nodup_ids
    [{ product := appleWatch, quantity := 1 },
     { product := banana, quantity := 1 }]
    appleWatch "2" 3 (by decide)).1

/-- C4: each of the four cart operations preserves the invariant that every
quantity is at least 1, and an update that would store a non-positive
quantity removes the addressed item instead. -/
theorem cart_ops_preserve_pos_quantities (cart : List CartItem) (p : Product)
    (pid : String) (n : Int) (h : ∀ item ∈ cart, 1 ≤ item.quantity) :
    (∀ item ∈ handleAddToCart p cart, 1 ≤ item.quantity) ∧
    (∀ item ∈ handleRemoveFromCart pid cart, 1 ≤ item.quantity) ∧
    (∀ item ∈ handleUpdateCartQuantity pid n cart, 1 ≤ item.quantity) ∧
    (∀ item ∈ handleClearCart cart, 1 ≤ item.quantity) ∧
    (n ≤ 0 →
      ∀ item ∈ handleUpdateCartQuantity pid n cart, item.product.id ≠ pid) := by
  have hfil : ∀ x : String,
      ∀ item ∈ cart.filter (fun item => item.product.id != x),
        1 ≤ item.quantity :=
    fun x item hmem => h item (List.mem_filter.mp hmem).1
  refine ⟨?_, hfil pid, ?_, by simp [handleClearCart], ?_⟩
  · unfold handleAddToCart
    split
    · exact h
    · cases hf : cart.find? (fun item => item.product.id == p.id) with
      | some it =>
        intro item hmem
        obtain ⟨x, hx, rfl⟩ := List.mem_map.mp hmem
        by_cases hb : x.product.id = p.id
        · have := h x hx
          simp [hb]
          omega
        · simpa [hb] using h x hx
      | none =>
        intro item hmem
        rcases List.mem_append.mp hmem with hmem' | hmem'
        · exact h item hmem'
        · simp at hmem'
          simp [hmem']
  · by_cases hn : n ≤ 0
    · simpa [handleUpdateCartQuantity, if_pos hn] using hfil pid
    · intro item hmem
      simp only [handleUpdateCartQuantity, if_neg hn] at hmem
      obtain ⟨x, hx, rfl⟩ := List.mem_map.mp hmem
      by_cases hb : x.product.id = pid
      · simp [hb]
        omega
      · simpa [hb] using h x hx
  · intro hn item hmem
    simp only [handleUpdateCartQuantity, if_pos hn] at hmem
    have := (List.mem_filter.mp hmem).2
    simpa using this

/-- Closed instance of `cart_ops_preserve_pos_quantities`: quantities stay
at least 1 after adding a product to a legal cart. -/
theorem cart_ops_preserve_pos_quantities_witness :
    (1 : Int) ≤ ({ product := banana, quantity := 1 } : CartItem).quantity :=
  (cart_ops_preserve_pos_quantities [{ product := appleWatch, quantity := 1 }]
    banana "1" 4 (by decide)).1 { product := banana, quantity := 1 } (by decide)

/-- Closed instance of `absent_id_ops_identity` at a concrete cart and an
absent product id. -/
theorem absent_id_ops_identity_witness :
    handleRemoveFromCart "zzz" [{ product := appleWatch, quantity := 1 }] =
      [{ product := appleWatch, quantity := 1 }] ∧
    handleUpdateCartQuantity "zzz" 5 [{ product := appleWatch, quantity := 1 }] =
      [{ product := appleWatch, quantity := 1 }] :=
  absent_id_ops_identity [{ product := appleWatch, quantity := 1 }] "zzz" 5
    (by decide)

/-- The ascending-price comparator is total. -/
instance : IsTotal Product (fun a b => a.price ≤ b.price) :=
  ⟨fun a b => le_total a.price b.price⟩

/-- The ascending-price comparator is transitive. -/
instance : IsTrans Product (fun a b => a.price ≤ b.price) :=
  ⟨fun _ _ _ h₁ h₂ => le_trans h₁ h₂⟩

/-- The descending-price comparator is total. -/
instance : IsTotal Product (fun a b => b.price ≤ a.price) :=
  ⟨fun a b => le_total b.price a.price⟩

/-- The descending-price comparator is transitive. -/
instance : IsTrans Product (fun a b => b.price ≤ a.price) :=
  ⟨fun _ _ _ h₁ h₂ => le_trans h₂ h₁⟩

/-- C5: the filter stage keeps exactly the products whose lower-cased name
contains the lower-cased search string and whose price meets the given
bounds (a missing bound being unbounded); search "app" keeps "Apple Watch"
and drops "Banana". -/
theorem filteredProducts_spec (products : List Product) (search : String)
    (minP maxP : Option ℚ) :
    filteredProducts search minP maxP products =
      products.filter (fun q =>
        nameMatchesSearch search q && meetsPriceBounds minP maxP q) ∧
    (∀ q, q ∈ filteredProducts search minP maxP products ↔
      q ∈ products ∧ (lowerChars search <:+: lowerChars q.name) ∧
      (∀ m ∈ minP, m ≤ q.price) ∧ (∀ m ∈ maxP, q.price ≤ m)) ∧
    filteredProducts "app" none none [appleWatch, banana] = [appleWatch] := by
  refine ⟨?_, ?_, by decide⟩
  · unfold filteredProducts
    rw [List.filter_filter]
    simp only [Bool.and_comm]
  · intro q
    cases minP <;> cases maxP <;>
      simp [filteredProducts, List.mem_filter, nameMatchesSearch,
        meetsPriceBounds, and_assoc] <;> tauto

/-- Closed instance of `filteredProducts_spec`: the concrete search
example. -/
theorem filteredProducts_spec_witness :
    filteredProducts "app" none none [appleWatch, banana] = [appleWatch] :=
  (filteredProducts_spec [appleWatch, banana] "app" none none).2.2

/-- C6: price-ascending sort returns a permutation of the input with
non-decreasing prices, price-descending one with non-increasing prices; on
the input with prices `[30, 10, 20]` ascending yields `[10, 20, 30]` and
descending yields the reverse `[30, 20, 10]`. -/
theorem sortProducts_price_spec (ps : List Product) :
    (List.Perm (sortProducts .priceAsc ps) ps ∧
      ((sortProducts .priceAsc ps).map (fun q => q.price)).Sorted (· ≤ ·)) ∧
    (List.Perm (sortProducts .priceDesc ps) ps ∧
      ((sortProducts .priceDesc ps).map (fun q => q.price)).Sorted (· ≥ ·)) ∧
    (sortProducts .priceAsc [pA, pB, pC]).map (fun q => q.price) =
      [10, 20, 30] ∧
    (sortProducts .priceDesc [pA, pB, pC]).map (fun q => q.price) =
      [30, 20, 10] ∧
    sortProducts .priceDesc [pA, pB, pC] =
      (sortProducts .priceAsc [pA, pB, pC]).reverse := by
  refine ⟨⟨List.perm_insertionSort _ _, ?_⟩,
    ⟨List.perm_insertionSort _ _, ?_⟩, by decide, by decide, by decide⟩
  · have hs := List.sorted_insertionSort (fun a b : Product => a.price ≤ b.price) ps
    exact List.Pairwise.map _ (fun a b hab => hab) hs
  · have hs := List.sorted_insertionSort (fun a b : Product => b.price ≤ a.price) ps
    exact List.Pairwise.map _ (fun a b hab => hab) hs

/-- C7: a failed product-list fetch makes `getProducts` return the empty
list (never an error), so the load effect ends with an empty catalog and the
loading flag false; the get/create/update/delete wrappers re-signal the
failure to the caller. -/
theorem api_error_policy_spec :
    (∀ e : String, getProducts (.error e) = []) ∧
    (∀ (t : Except String (List Product)) (s : LoadState),
      appLoad t s = { products := getProducts t, loading := false }) ∧
    (∀ e : String, appLoad (.error e) initialLoadState =
      { products := [], loading := false }) ∧
    initialLoadState.loading = true ∧
    (∀ e : String, getProduct (.error e) = .error e) ∧
    (∀ e : String, createProduct (.error e) = .error e) ∧
    (∀ e : String, updateProduct (.error e) = .error e) ∧
    (∀ e : String, deleteProduct (.error e) = .error e) :=
  ⟨fun _ => rfl, fun _ _ => rfl, fun _ => rfl, rfl,
    fun _ => rfl, fun _ => rfl, fun _ => rfl, fun _ => rfl⟩

/-- C8: cart rehydration yields the empty cart when the stored value is
absent or fails to parse, and the parsed cart when it parses. -/
theorem rehydrateCart_spec (parse : String → Option (List CartItem))
    (raw : String) :
    rehydrateCart none parse = [] ∧
    (parse raw = none → rehydrateCart (some raw) parse = []) ∧
    (∀ cart, parse raw = some cart → rehydrateCart (some raw) parse = cart) := by
  refine ⟨rfl, fun hn => ?_, fun cart hc => ?_⟩
  · simp [rehydrateCart, hn]
  · simp [rehydrateCart, hc]

/-- Closed instance of `rehydrateCart_spec`: a corrupted stored value
rehydrates to the empty cart. -/
theorem rehydrateCart_spec_witness :
    rehydrateCart (some "corrupt") (fun _ => none) = [] :=
  (rehydrateCart_spec (fun _ => none) "corrupt").2.1 rfl
